import Mathlib

/-!
Verification of the scoring core of `kge/model/kge_model.py` (knowledge-graph
embedding framework).  Tensors are embedded shallowly as a shape list plus a
row-major flat data list, matching the 2-D tensors that flow through
`RelationalScorer.score_emb`, `KgeModel.score_spo` / `score_sp` / `score_po` /
`score_sp_po`, and `KgeEmbedder.__init__` / `get_option`.
-/

set_option maxHeartbeats 1000000

/-- Kinds of Python exceptions the translated code can raise. -/
inductive PyErr where
  | assertionError : PyErr
  | valueError : String → PyErr
  | runtimeError : String → PyErr
  | keyError : PyErr
  | indexError : PyErr
  | typeError : String → PyErr
deriving DecidableEq, Repr

instance {ε α : Type} [DecidableEq ε] [DecidableEq α] : DecidableEq (Except ε α) := fun x y =>
  match x, y with
  | .ok a, .ok b =>
    if h : a = b then isTrue (by rw [h]) else isFalse (fun he => h (Except.ok.inj he))
  | .error a, .error b =>
    if h : a = b then isTrue (by rw [h]) else isFalse (fun he => h (Except.error.inj he))
  | .ok _, .error _ => isFalse (fun he => Except.noConfusion he)
  | .error _, .ok _ => isFalse (fun he => Except.noConfusion he)

/-- Three-list pointwise zip, used to model row-wise combination of the three
embedding batches by the SPO primitive. -/
def zipWith3 (f : α → β → γ → δ) : List α → List β → List γ → List δ
  | a :: as, b :: bs, c :: cs => f a b c :: zipWith3 f as bs cs
  | _, _, _ => []

@[simp] theorem zipWith3_nil_left (f : α → β → γ → δ) (bs : List β) (cs : List γ) :
    zipWith3 f [] bs cs = [] := by
  cases bs <;> cases cs <;> rfl

@[simp] theorem zipWith3_cons_cons_cons (f : α → β → γ → δ) (a : α) (b : β) (c : γ)
    (as : List α) (bs : List β) (cs : List γ) :
    zipWith3 f (a :: as) (b :: bs) (c :: cs) = f a b c :: zipWith3 f as bs cs := rfl

theorem zipWith3_length (f : α → β → γ → δ) :
    ∀ (as : List α) (bs : List β) (cs : List γ),
      (zipWith3 f as bs cs).length = min as.length (min bs.length cs.length)
  | [], bs, cs => by cases bs <;> cases cs <;> simp [zipWith3]
  | _ :: _, [], cs => by cases cs <;> simp [zipWith3]
  | _ :: _, _ :: _, [] => by simp [zipWith3]
  | a :: as, b :: bs, c :: cs => by
    simp [zipWith3, zipWith3_length f as bs cs]
    omega

theorem zipWith3_append (f : α → β → γ → δ) :
    ∀ (a₁ : List α) (b₁ : List β) (c₁ : List γ) (a₂ : List α) (b₂ : List β) (c₂ : List γ),
      a₁.length = b₁.length → a₁.length = c₁.length →
      zipWith3 f (a₁ ++ a₂) (b₁ ++ b₂) (c₁ ++ c₂) =
        zipWith3 f a₁ b₁ c₁ ++ zipWith3 f a₂ b₂ c₂
  | [], b₁, c₁, a₂, b₂, c₂, h₁, h₂ => by
    have hb : b₁ = [] := by simpa using h₁.symm
    have hc : c₁ = [] := by simpa using h₂.symm
    simp [hb, hc]
  | a :: as, b₁, c₁, a₂, b₂, c₂, h₁, h₂ => by
    cases b₁ with
    | nil => simp at h₁
    | cons b bs =>
      cases c₁ with
      | nil => simp at h₂
      | cons c cs =>
        simp only [List.cons_append, zipWith3_cons_cons_cons]
        rw [zipWith3_append f as bs cs a₂ b₂ c₂ (by simpa using h₁) (by simpa using h₂)]

theorem zipWith3_replicate_left2 (f : α → β → γ → δ) (x : α) (y : β) :
    ∀ cs : List γ,
      zipWith3 f (List.replicate cs.length x) (List.replicate cs.length y) cs =
        cs.map (fun c => f x y c)
  | [] => rfl
  | c :: cs => by
    simp only [List.length_cons, List.replicate_succ, zipWith3_cons_cons_cons, List.map_cons]
    rw [zipWith3_replicate_left2 f x y cs]

theorem zipWith3_replicate_right2 (f : α → β → γ → δ) (y : β) (z : γ) :
    ∀ as : List α,
      zipWith3 f as (List.replicate as.length y) (List.replicate as.length z) =
        as.map (fun a => f a y z)
  | [] => rfl
  | a :: as => by
    simp only [List.length_cons, List.replicate_succ, zipWith3_cons_cons_cons, List.map_cons]
    rw [zipWith3_replicate_right2 f y z as]

theorem flatten_zipWith3_singleton (f : α → β → γ → δ) :
    ∀ (as : List α) (bs : List β) (cs : List γ),
      (zipWith3 (fun a b c => [f a b c]) as bs cs).flatten = zipWith3 f as bs cs
  | [], bs, cs => by cases bs <;> cases cs <;> rfl
  | _ :: _, [], cs => by cases cs <;> rfl
  | _ :: _, _ :: _, [] => rfl
  | a :: as, b :: bs, c :: cs => by
    simp only [zipWith3_cons_cons_cons, List.flatten_cons, List.singleton_append]
    rw [flatten_zipWith3_singleton f as bs cs]

/-- A (conceptually 2-D, row-major) tensor: explicit shape plus flat data,
mirroring the shape/storage split of the numeric backend. -/
structure Tensor (α : Type) where
  shape : List Nat
  data : List α
deriving DecidableEq, Repr

namespace Tensor

/-- `t.size(0)`: the row count of the tensor. -/
def size0 (t : Tensor α) : Nat := t.shape.headD 0

/-- Number of columns of a 2-D tensor. -/
def cols (t : Tensor α) : Nat := (t.shape.drop 1).headD 1

/-- Build a 2-D tensor from a list of rows, each expected to have length `d`. -/
def ofRows (d : Nat) (rs : List (List α)) : Tensor α := ⟨[rs.length, d], rs.flatten⟩

/-- Cut a flat list into `n` consecutive chunks of length `k` (row recovery). -/
def splitRows (k : Nat) : Nat → List α → List (List α)
  | 0, _ => []
  | n + 1, l => l.take k :: splitRows k n (l.drop k)

/-- The rows of a 2-D tensor. -/
def rows (t : Tensor α) : List (List α) := splitRows t.cols t.size0 t.data

/-- `t.repeat_interleave(k, 0)`: every row is repeated `k` times contiguously
(block-repeat). -/
def repeatInterleave0 (t : Tensor α) (k : Nat) : Tensor α :=
  ofRows t.cols (t.rows.flatMap (List.replicate k))

/-- `t.repeat((k, 1))`: the whole tensor is tiled `k` times along dimension 0. -/
def repeatRows (t : Tensor α) (k : Nat) : Tensor α :=
  ofRows t.cols ((List.replicate k t.rows).flatten)

/-- `t.view(n, -1)`: reshape to `n` rows, inferring the column count.  Fails
when `n` is zero or does not divide the number of elements, as the backend
does. -/
def viewNeg1 (t : Tensor α) (n : Nat) : Except PyErr (Tensor α) :=
  if n ≠ 0 ∧ t.data.length % n = 0 then .ok ⟨[n, t.data.length / n], t.data⟩
  else .error (.runtimeError "shape invalid for input size")

/-- `torch.cat((a, b), dim=1)`: horizontal concatenation of two 2-D tensors. -/
def cat1 (a b : Tensor α) : Tensor α :=
  ofRows (a.cols + b.cols) (List.zipWith (fun x y => x ++ y) a.rows b.rows)

/-- Well-formedness of a 2-D tensor: the shape is a two-element list and the
flat data has exactly `rows * cols` elements. -/
def WF (t : Tensor α) : Prop :=
  t.shape = [t.size0, t.cols] ∧ t.data.length = t.size0 * t.cols

instance (t : Tensor α) : Decidable t.WF := by
  unfold WF; infer_instance

@[simp] theorem size0_ofRows (d : Nat) (rs : List (List α)) :
    (ofRows d rs).size0 = rs.length := rfl

@[simp] theorem cols_ofRows (d : Nat) (rs : List (List α)) :
    (ofRows d rs).cols = d := rfl

@[simp] theorem data_ofRows (d : Nat) (rs : List (List α)) :
    (ofRows d rs).data = rs.flatten := rfl

@[simp] theorem shape_ofRows (d : Nat) (rs : List (List α)) :
    (ofRows d rs).shape = [rs.length, d] := rfl

theorem splitRows_length (k : Nat) :
    ∀ (n : Nat) (l : List α), (splitRows k n l).length = n
  | 0, _ => rfl
  | n + 1, l => by simp [splitRows, splitRows_length k n]

@[simp] theorem rows_length (t : Tensor α) : t.rows.length = t.size0 :=
  splitRows_length _ _ _

theorem splitRows_flatten (k : Nat) :
    ∀ rs : List (List α), (∀ r ∈ rs, r.length = k) →
      splitRows k rs.length rs.flatten = rs
  | [], _ => rfl
  | r :: rs, h => by
    have hr : r.length = k := h r (List.mem_cons_self r rs)
    have ht : (r ++ rs.flatten).take k = r := by
      rw [← hr]; exact List.take_left r rs.flatten
    have hd : (r ++ rs.flatten).drop k = rs.flatten := by
      rw [← hr]; exact List.drop_left r rs.flatten
    simp only [List.length_cons, List.flatten_cons, splitRows]
    rw [ht, hd, splitRows_flatten k rs (fun x hx => h x (List.mem_cons_of_mem r hx))]

theorem rows_ofRows (d : Nat) (rs : List (List α)) (h : ∀ r ∈ rs, r.length = d) :
    (ofRows d rs).rows = rs := by
  unfold rows
  simp only [cols_ofRows, size0_ofRows, data_ofRows]
  exact splitRows_flatten d rs h

theorem length_flatten_const (k : Nat) :
    ∀ rs : List (List α), (∀ r ∈ rs, r.length = k) →
      rs.flatten.length = rs.length * k
  | [], _ => by simp
  | r :: rs, h => by
    have hr : r.length = k := h r (List.mem_cons_self r rs)
    simp only [List.flatten_cons, List.length_append, List.length_cons, hr]
    rw [length_flatten_const k rs (fun x hx => h x (List.mem_cons_of_mem r hx))]
    ring

theorem ofRows_WF (d : Nat) (rs : List (List α)) (h : ∀ r ∈ rs, r.length = d) :
    (ofRows d rs).WF := by
  refine ⟨rfl, ?_⟩
  simp only [data_ofRows, size0_ofRows, cols_ofRows]
  exact length_flatten_const d rs h

theorem splitRows_mem_length (k : Nat) :
    ∀ (n : Nat) (l : List α), l.length = n * k →
      ∀ r ∈ splitRows k n l, r.length = k := by
  intro n
  induction n with
  | zero => intro l _ r hr; simp [splitRows] at hr
  | succ n ih =>
    intro l hl r hr
    rw [Nat.succ_mul] at hl
    simp only [splitRows, List.mem_cons] at hr
    rcases hr with hr | hr
    · subst hr
      simp only [List.length_take, hl]
      omega
    · exact ih (l.drop k) (by rw [List.length_drop, hl]; omega) r hr

theorem WF_rows_len (t : Tensor α) (h : t.WF) : ∀ r ∈ t.rows, r.length = t.cols :=
  splitRows_mem_length t.cols t.size0 t.data h.2

end Tensor

/-! ## The relational scorer (`RelationalScorer.score_emb_spo` / `score_emb`)

The concrete scoring formula is supplied by model variants; it is abstracted
here as a function `f` from the three embedding rows to a score. -/

/-- `RelationalScorer.score_emb_spo`: combines the three batches row-wise and
returns an `n × 1` tensor whose `i`-th entry is the score of
`(s_i, p_i, o_i)`. -/
def score_emb_spo (f : List α → List α → List α → α)
    (s_emb p_emb o_emb : Tensor α) : Tensor α :=
  Tensor.ofRows 1 (zipWith3 (fun a b c => [f a b c]) s_emb.rows p_emb.rows o_emb.rows)

/-- `RelationalScorer.score_emb`: dispatch on the `combine` mode, expand the
batches, feed them to the SPO primitive and reshape with `view(n, -1)`. -/
def score_emb (f : List α → List α → List α → α)
    (s_emb p_emb o_emb : Tensor α) (combine : String) : Except PyErr (Tensor α) :=
  let n := p_emb.size0
  if combine = "spo" then
    if s_emb.size0 = n ∧ o_emb.size0 = n then
      (score_emb_spo f s_emb p_emb o_emb).viewNeg1 n
    else .error .assertionError
  else if combine = "sp*" then
    if s_emb.size0 = n then
      let n_o := o_emb.size0
      let s_embs := s_emb.repeatInterleave0 n_o
      let p_embs := p_emb.repeatInterleave0 n_o
      let o_embs := o_emb.repeatRows n
      (score_emb_spo f s_embs p_embs o_embs).viewNeg1 n
    else .error .assertionError
  else if combine = "*po" then
    if o_emb.size0 = n then
      let n_s := s_emb.size0
      let s_embs := s_emb.repeatRows n
      let p_embs := p_emb.repeatInterleave0 n_s
      let o_embs := o_emb.repeatInterleave0 n_s
      (score_emb_spo f s_embs p_embs o_embs).viewNeg1 n
    else .error .assertionError
  else .error (.valueError "cannot handle combine=\"\x7b\x7d\".format(combine)")

/-- Core broadcast identity for the SP-star expansion: block-repeating the
subject and predicate rows and tiling the object rows aligns entry
`i * n_o + j` with the triple `(s_i, p_i, o_j)`. -/
theorem spStar_core (f : List α → List α → List α → β) :
    ∀ (S P O : List (List α)), S.length = P.length →
      zipWith3 f (S.flatMap (List.replicate O.length))
        (P.flatMap (List.replicate O.length))
        ((List.replicate S.length O).flatten) =
      (List.zipWith (fun sr pr => O.map (fun orow => f sr pr orow)) S P).flatten
  | [], P, O, h => by
    have : P = [] := by simpa using h.symm
    simp [this]
  | s :: S, P, O, h => by
    cases P with
    | nil => simp at h
    | cons p P =>
      simp only [List.flatMap_cons, List.length_cons, List.replicate_succ,
        List.flatten_cons, List.zipWith_cons_cons]
      rw [zipWith3_append f (List.replicate O.length s) (List.replicate O.length p) O _ _ _
        (by simp) (by simp)]
      rw [zipWith3_replicate_left2 f s p O]
      rw [spStar_core f S P O (by simpa using h)]

/-- Core broadcast identity for the STAR-PO expansion: tiling the subject rows
and block-repeating the predicate and object rows aligns entry
`i * n_s + j` with the triple `(s_j, p_i, o_i)`. -/
theorem starPO_core (f : List α → List α → List α → β) :
    ∀ (P O S : List (List α)), P.length = O.length →
      zipWith3 f ((List.replicate P.length S).flatten)
        (P.flatMap (List.replicate S.length))
        (O.flatMap (List.replicate S.length)) =
      (List.zipWith (fun pr orow => S.map (fun sr => f sr pr orow)) P O).flatten
  | [], O, S, h => by
    have : O = [] := by simpa using h.symm
    simp [this]
  | p :: P, O, S, h => by
    cases O with
    | nil => simp at h
    | cons o O =>
      simp only [List.flatMap_cons, List.length_cons, List.replicate_succ,
        List.flatten_cons, List.zipWith_cons_cons]
      rw [zipWith3_append f S (List.replicate S.length p) (List.replicate S.length o) _ _ _
        (by simp) (by simp)]
      rw [zipWith3_replicate_right2 f p o S]
      rw [starPO_core f P O S (by simpa using h)]

theorem length_mem_zipWith {A B C : Type} {F : A → B → List C} {k : Nat}
    (hF : ∀ a b, (F a b).length = k) :
    ∀ (S : List A) (P : List B), ∀ r ∈ List.zipWith F S P, r.length = k
  | [], _ => by simp
  | _ :: _, [] => by simp
  | a :: S, b :: P => by
    intro r hr
    rw [List.zipWith_cons_cons, List.mem_cons] at hr
    rcases hr with hr | hr
    · rw [hr]; exact hF a b
    · exact length_mem_zipWith hF S P r hr

/-- Branch selection of `score_emb` for the literal mode `"spo"`. -/
theorem score_emb_eq_spo_branch (f : List α → List α → List α → α) (s p o : Tensor α) :
    score_emb f s p o "spo" =
      (if s.size0 = p.size0 ∧ o.size0 = p.size0 then
        (score_emb_spo f s p o).viewNeg1 p.size0
      else .error .assertionError) := rfl

/-- Branch selection of `score_emb` for the literal mode `"sp*"`. -/
theorem score_emb_eq_spStar_branch (f : List α → List α → List α → α) (s p o : Tensor α) :
    score_emb f s p o "sp*" =
      (if s.size0 = p.size0 then
        (score_emb_spo f (s.repeatInterleave0 o.size0) (p.repeatInterleave0 o.size0)
          (o.repeatRows p.size0)).viewNeg1 p.size0
      else .error .assertionError) := rfl

/-- Branch selection of `score_emb` for the literal mode `"*po"`. -/
theorem score_emb_eq_starPO_branch (f : List α → List α → List α → α) (s p o : Tensor α) :
    score_emb f s p o "*po" =
      (if o.size0 = p.size0 then
        (score_emb_spo f (s.repeatRows p.size0) (p.repeatInterleave0 s.size0)
          (o.repeatInterleave0 s.size0)).viewNeg1 p.size0
      else .error .assertionError) := rfl

/-- Mode `"spo"` of `score_emb` returns the `n × 1` tensor of row-wise SPO
scores (the `view(n, -1)` at the end keeps two dimensions). -/
theorem score_emb_spo_ok (f : List α → List α → List α → α) (s p o : Tensor α)
    (hs : s.size0 = p.size0) (ho : o.size0 = p.size0) (hpos : 0 < p.size0) :
    score_emb f s p o "spo" =
      .ok ⟨[p.size0, 1], zipWith3 f s.rows p.rows o.rows⟩ := by
  have hdata : (score_emb_spo f s p o).data = zipWith3 f s.rows p.rows o.rows := by
    simp only [score_emb_spo, Tensor.data_ofRows]
    exact flatten_zipWith3_singleton f _ _ _
  have hlen : (score_emb_spo f s p o).data.length = p.size0 := by
    rw [hdata, zipWith3_length]
    simp [hs, ho]
  rw [score_emb_eq_spo_branch, if_pos ⟨hs, ho⟩]
  unfold Tensor.viewNeg1
  rw [if_pos ⟨Nat.pos_iff_ne_zero.mp hpos, by rw [hlen, Nat.mod_self]⟩]
  rw [hlen, Nat.div_self hpos, hdata]

/-- Mode `"sp*"` of `score_emb` returns the `n × n_o` matrix whose `(i, j)`
entry is the SPO score of `(s_i, p_i, o_j)`. -/
theorem score_emb_spStar_ok (f : List α → List α → List α → α) (s p o : Tensor α)
    (hws : s.WF) (hwp : p.WF) (hwo : o.WF)
    (hn : s.size0 = p.size0) (hpos : 0 < p.size0) :
    score_emb f s p o "sp*" =
      .ok (Tensor.ofRows o.size0
        (List.zipWith (fun sr pr => o.rows.map (fun orow => f sr pr orow)) s.rows p.rows)) := by
  have hSrows : (s.repeatInterleave0 o.size0).rows
      = s.rows.flatMap (List.replicate o.size0) := by
    apply Tensor.rows_ofRows
    intro r hr
    rcases List.mem_flatMap.mp hr with ⟨r0, hr0, hrr⟩
    rw [List.eq_of_mem_replicate hrr]
    exact Tensor.WF_rows_len s hws r0 hr0
  have hProws : (p.repeatInterleave0 o.size0).rows
      = p.rows.flatMap (List.replicate o.size0) := by
    apply Tensor.rows_ofRows
    intro r hr
    rcases List.mem_flatMap.mp hr with ⟨r0, hr0, hrr⟩
    rw [List.eq_of_mem_replicate hrr]
    exact Tensor.WF_rows_len p hwp r0 hr0
  have hOrows : (o.repeatRows p.size0).rows = (List.replicate p.size0 o.rows).flatten := by
    apply Tensor.rows_ofRows
    intro r hr
    rcases List.mem_flatten.mp hr with ⟨l, hl, hrl⟩
    rw [List.eq_of_mem_replicate hl] at hrl
    exact Tensor.WF_rows_len o hwo r hrl
  have hdata : (score_emb_spo f (s.repeatInterleave0 o.size0) (p.repeatInterleave0 o.size0)
        (o.repeatRows p.size0)).data
      = (List.zipWith (fun sr pr => o.rows.map (fun orow => f sr pr orow)) s.rows p.rows).flatten := by
    simp only [score_emb_spo, Tensor.data_ofRows]
    rw [flatten_zipWith3_singleton, hSrows, hProws, hOrows]
    have hrep : p.size0 = s.rows.length := by rw [Tensor.rows_length]; exact hn.symm
    rw [← Tensor.rows_length o, hrep]
    exact spStar_core f s.rows p.rows o.rows (by rw [Tensor.rows_length, Tensor.rows_length, hn])
  have hlen : (score_emb_spo f (s.repeatInterleave0 o.size0) (p.repeatInterleave0 o.size0)
        (o.repeatRows p.size0)).data.length = p.size0 * o.size0 := by
    rw [hdata]
    rw [Tensor.length_flatten_const o.size0 _
      (length_mem_zipWith (fun a b => by rw [List.length_map, Tensor.rows_length]) s.rows p.rows)]
    rw [List.length_zipWith, Tensor.rows_length, Tensor.rows_length, hn, min_self]
  have hRSlen : (List.zipWith (fun sr pr => o.rows.map fun orow => f sr pr orow)
      s.rows p.rows).length = p.size0 := by
    rw [List.length_zipWith, Tensor.rows_length, Tensor.rows_length, hn, min_self]
  rw [score_emb_eq_spStar_branch, if_pos hn]
  unfold Tensor.viewNeg1
  rw [if_pos ⟨Nat.pos_iff_ne_zero.mp hpos, by rw [hlen, Nat.mul_mod_right]⟩]
  rw [hlen, Nat.mul_div_cancel_left _ hpos, hdata]
  unfold Tensor.ofRows
  rw [hRSlen]

/-- Mode `"*po"` of `score_emb` returns the `n × n_s` matrix whose `(i, j)`
entry is the SPO score of `(s_j, p_i, o_i)`. -/
theorem score_emb_starPO_ok (f : List α → List α → List α → α) (s p o : Tensor α)
    (hws : s.WF) (hwp : p.WF) (hwo : o.WF)
    (hn : o.size0 = p.size0) (hpos : 0 < p.size0) :
    score_emb f s p o "*po" =
      .ok (Tensor.ofRows s.size0
        (List.zipWith (fun pr orow => s.rows.map (fun sr => f sr pr orow)) p.rows o.rows)) := by
  have hSrows : (s.repeatRows p.size0).rows = (List.replicate p.size0 s.rows).flatten := by
    apply Tensor.rows_ofRows
    intro r hr
    rcases List.mem_flatten.mp hr with ⟨l, hl, hrl⟩
    rw [List.eq_of_mem_replicate hl] at hrl
    exact Tensor.WF_rows_len s hws r hrl
  have hProws : (p.repeatInterleave0 s.size0).rows
      = p.rows.flatMap (List.replicate s.size0) := by
    apply Tensor.rows_ofRows
    intro r hr
    rcases List.mem_flatMap.mp hr with ⟨r0, hr0, hrr⟩
    rw [List.eq_of_mem_replicate hrr]
    exact Tensor.WF_rows_len p hwp r0 hr0
  have hOrows : (o.repeatInterleave0 s.size0).rows
      = o.rows.flatMap (List.replicate s.size0) := by
    apply Tensor.rows_ofRows
    intro r hr
    rcases List.mem_flatMap.mp hr with ⟨r0, hr0, hrr⟩
    rw [List.eq_of_mem_replicate hrr]
    exact Tensor.WF_rows_len o hwo r0 hr0
  have hdata : (score_emb_spo f (s.repeatRows p.size0) (p.repeatInterleave0 s.size0)
        (o.repeatInterleave0 s.size0)).data
      = (List.zipWith (fun pr orow => s.rows.map (fun sr => f sr pr orow)) p.rows o.rows).flatten := by
    simp only [score_emb_spo, Tensor.data_ofRows]
    rw [flatten_zipWith3_singleton, hSrows, hProws, hOrows]
    have hrep : p.size0 = p.rows.length := (Tensor.rows_length p).symm
    rw [← Tensor.rows_length s, hrep]
    exact starPO_core f p.rows o.rows s.rows (by rw [Tensor.rows_length, Tensor.rows_length, hn])
  have hlen : (score_emb_spo f (s.repeatRows p.size0) (p.repeatInterleave0 s.size0)
        (o.repeatInterleave0 s.size0)).data.length = p.size0 * s.size0 := by
    rw [hdata]
    rw [Tensor.length_flatten_const s.size0 _
      (length_mem_zipWith (fun a b => by rw [List.length_map, Tensor.rows_length]) p.rows o.rows)]
    rw [List.length_zipWith, Tensor.rows_length, Tensor.rows_length, hn, min_self]
  have hRSlen : (List.zipWith (fun pr orow => s.rows.map fun sr => f sr pr orow)
      p.rows o.rows).length = p.size0 := by
    rw [List.length_zipWith, Tensor.rows_length, Tensor.rows_length, hn, min_self]
  rw [score_emb_eq_starPO_branch, if_pos hn]
  unfold Tensor.viewNeg1
  rw [if_pos ⟨Nat.pos_iff_ne_zero.mp hpos, by rw [hlen, Nat.mul_mod_right]⟩]
  rw [hlen, Nat.mul_div_cancel_left _ hpos, hdata]
  unfold Tensor.ofRows
  rw [hRSlen]

/-! ## The model façade (`KgeModel`)

`KgeModel` owns one entity embedder (used for both subject and object roles,
cf. `get_s_embedder` / `get_o_embedder` both returning `_entity_embedder`),
one relation embedder, and one scorer.  The embedders are lookup tables here,
per their documented contract (`embed` returns one row per index in input
order, `embed_all` returns the full table). -/

structure KModel (α : Type) where
  entTable : List (List α)
  relTable : List (List α)
  d_e : Nat
  d_r : Nat
  f : List α → List α → List α → α

namespace KModel

variable {α : Type}

/-- The embedding tables are rectangular with the declared dimensions. -/
def WF (m : KModel α) : Prop :=
  (∀ r ∈ m.entTable, r.length = m.d_e) ∧ (∀ r ∈ m.relTable, r.length = m.d_r)

instance (m : KModel α) : Decidable m.WF := by
  unfold WF; infer_instance

/-- `KgeEmbedder.embed` for the entity embedder: one row per index, in input
order; out-of-range indices fail. -/
def embedEnt (m : KModel α) (idx : List Nat) : Except PyErr (Tensor α) :=
  if idx.all (fun i => i < m.entTable.length) then
    .ok (Tensor.ofRows m.d_e (idx.map (fun i => m.entTable.getD i [])))
  else .error .indexError

/-- `KgeEmbedder.embed` for the relation embedder. -/
def embedRel (m : KModel α) (idx : List Nat) : Except PyErr (Tensor α) :=
  if idx.all (fun i => i < m.relTable.length) then
    .ok (Tensor.ofRows m.d_r (idx.map (fun i => m.relTable.getD i [])))
  else .error .indexError

/-- `KgeEmbedder.embed_all` for the entity embedder: the full table. -/
def embed_all_ent (m : KModel α) : Tensor α := Tensor.ofRows m.d_e m.entTable

/-- `KgeModel.score_spo`: embed all three index vectors, then score with
mode `"spo"`. -/
def score_spo (m : KModel α) (s p o : List Nat) : Except PyErr (Tensor α) := do
  let se ← m.embedEnt s
  let pe ← m.embedRel p
  let oe ← m.embedEnt o
  score_emb m.f se pe oe "spo"

/-- `KgeModel.score_sp`: embed `s` and `p`; `o = none` means the full entity
table; then score with mode `"sp*"`. -/
def score_sp (m : KModel α) (s p : List Nat) (o : Option (List Nat)) :
    Except PyErr (Tensor α) := do
  let se ← m.embedEnt s
  let pe ← m.embedRel p
  let oe ← (match o with
    | none => pure m.embed_all_ent
    | some oi => m.embedEnt oi)
  score_emb m.f se pe oe "sp*"

/-- `KgeModel.score_po`: `s = none` means the full entity table; then score
with mode `"*po"` (the source embeds `s`, then `o`, then `p`). -/
def score_po (m : KModel α) (p o : List Nat) (s : Option (List Nat)) :
    Except PyErr (Tensor α) := do
  let se ← (match s with
    | none => pure m.embed_all_ent
    | some si => m.embedEnt si)
  let oe ← m.embedEnt o
  let pe ← m.embedRel p
  score_emb m.f se pe oe "*po"

/-- `KgeModel.score_sp_po`: in this core the subject and object embedders are
the same entity embedder, so the `get_s_embedder() is get_o_embedder()`
branch is taken: the full-vocabulary batch is computed once and reused for
both halves, and the two score matrices are concatenated horizontally. -/
def score_sp_po (m : KModel α) (s p o : List Nat) : Except PyErr (Tensor α) := do
  let se ← m.embedEnt s
  let pe ← m.embedRel p
  let oe ← m.embedEnt o
  let all_entities := m.embed_all_ent
  let sp_scores ← score_emb m.f se pe all_entities "sp*"
  let po_scores ← score_emb m.f all_entities pe oe "*po"
  pure (Tensor.cat1 sp_scores po_scores)

/-- The non-shared-embedder branch of `KgeModel.score_sp_po`, which computes
the full-vocabulary batch once per half; with a single entity embedder both
`embed_all` calls return the same table. -/
def score_sp_po_separate (m : KModel α) (s p o : List Nat) : Except PyErr (Tensor α) := do
  let se ← m.embedEnt s
  let pe ← m.embedRel p
  let oe ← m.embedEnt o
  let all_objects := m.embed_all_ent
  let sp_scores ← score_emb m.f se pe all_objects "sp*"
  let all_subjects := m.embed_all_ent
  let po_scores ← score_emb m.f all_subjects pe oe "*po"
  pure (Tensor.cat1 sp_scores po_scores)

theorem embedEnt_ok (m : KModel α) (idx : List Nat)
    (h : ∀ i ∈ idx, i < m.entTable.length) :
    m.embedEnt idx = .ok (Tensor.ofRows m.d_e (idx.map (fun i => m.entTable.getD i []))) := by
  unfold embedEnt
  rw [if_pos]
  rw [List.all_eq_true]
  intro i hi
  exact decide_eq_true (h i hi)

theorem embedRel_ok (m : KModel α) (idx : List Nat)
    (h : ∀ i ∈ idx, i < m.relTable.length) :
    m.embedRel idx = .ok (Tensor.ofRows m.d_r (idx.map (fun i => m.relTable.getD i []))) := by
  unfold embedRel
  rw [if_pos]
  rw [List.all_eq_true]
  intro i hi
  exact decide_eq_true (h i hi)

theorem embedEnt_WF (m : KModel α) (hm : m.WF) (idx : List Nat)
    (h : ∀ i ∈ idx, i < m.entTable.length) :
    (Tensor.ofRows m.d_e (idx.map (fun i => m.entTable.getD i []))).WF := by
  apply Tensor.ofRows_WF
  intro r hr
  rcases List.mem_map.mp hr with ⟨i, hi, hri⟩
  have hlt : i < m.entTable.length := h i hi
  rw [← hri, List.getD_eq_getElem m.entTable [] hlt]
  exact hm.1 _ (List.getElem_mem hlt)

theorem embedRel_WF (m : KModel α) (hm : m.WF) (idx : List Nat)
    (h : ∀ i ∈ idx, i < m.relTable.length) :
    (Tensor.ofRows m.d_r (idx.map (fun i => m.relTable.getD i []))).WF := by
  apply Tensor.ofRows_WF
  intro r hr
  rcases List.mem_map.mp hr with ⟨i, hi, hri⟩
  have hlt : i < m.relTable.length := h i hi
  rw [← hri, List.getD_eq_getElem m.relTable [] hlt]
  exact hm.2 _ (List.getElem_mem hlt)

theorem embed_all_ent_WF (m : KModel α) (hm : m.WF) : m.embed_all_ent.WF :=
  Tensor.ofRows_WF _ _ hm.1

end KModel

/-! ## Configuration service and `KgeEmbedder` construction

The `Config` class itself lives outside this scoring module; it is modelled
from the spec (section 6): a flat dotted-key store with type-checked
`get`/`set`, `clone`, and enumeration of a subtree into a flat mapping. -/

/-- Modelled from the spec: a configuration value (the store is typed; `set`
checks that the new value has the type of the existing default). -/
inductive CVal where
  | str : String → CVal
  | int : Int → CVal
  | bool : Bool → CVal
deriving DecidableEq, Repr

/-- Type tag of a configuration value, used by the schema check in `set`. -/
def CVal.tag : CVal → Nat
  | .str _ => 0
  | .int _ => 1
  | .bool _ => 2

/-- Modelled from the spec: the hierarchical key-value store, as an
association list over fully dotted keys. -/
abbrev Config := List (String × CVal)

namespace Config

/-- Key lookup in the store. -/
def find : Config → String → Option CVal
  | [], _ => none
  | (a, b) :: rest, k => if a = k then some b else find rest k

/-- Modelled from the spec: `get(key)` fails with a missing-key error if the
key is absent. -/
def get (c : Config) (k : String) : Except PyErr CVal :=
  match c.find k with
  | some v => .ok v
  | none => .error .keyError

/-- The type registered for a key, if any. -/
def tagAt (c : Config) (k : String) : Option Nat :=
  (c.find k).map CVal.tag

/-- Replace the value stored under a key (used by `set`). -/
def update : Config → String → CVal → Config
  | [], _, _ => []
  | (a, b) :: rest, k, v =>
    if a = k then (k, v) :: update rest k v else (a, b) :: update rest k v

/-- Modelled from the spec: `set(key, value)` fails with a type/schema error
when the key is not a valid key of the store or the value has the wrong
type; otherwise it updates the stored value. -/
def set (c : Config) (k : String) (v : CVal) : Except PyErr Config :=
  if c.tagAt k = some v.tag then .ok (c.update k v)
  else .error (.valueError ("invalid key or value type: " ++ k))

/-- Modelled from the spec: `clone()` returns an independent copy used for
speculative validation. -/
def clone (c : Config) : Config := c

/-- Strip a dotted prefix from a key: `stripDot "a.b" "a.b.c" = some "c"`. -/
def stripDot (pre k : String) : Option String :=
  let pl := pre.data ++ ['.']
  if k.data.take pl.length = pl then some (String.mk (k.data.drop pl.length)) else none

/-- Modelled from the spec: `Config.flatten(config.get(prefix))` — enumerate
the subtree below a dotted prefix as a flat key-to-value mapping with the
prefix stripped. -/
def flattenSub (c : Config) (pre : String) : List (String × CVal) :=
  c.filterMap (fun kv => (stripDot pre kv.1).map (fun k => (k, kv.2)))

/-- A custom option is valid when the schema has the key with the same value
type, i.e. exactly when `set` would succeed on it. -/
def validOpt (c : Config) (k : String) (v : CVal) : Prop :=
  c.tagAt k = some v.tag

instance (c : Config) (k : String) (v : CVal) : Decidable (validOpt c k v) := by
  unfold validOpt; infer_instance

theorem set_ok_of_validOpt {c : Config} {k : String} {v : CVal}
    (h : validOpt c k v) : c.set k v = .ok (c.update k v) := by
  have h' : c.tagAt k = some v.tag := h
  unfold set
  rw [if_pos h']

theorem set_err_of_not_validOpt {c : Config} {k : String} {v : CVal}
    (h : ¬ validOpt c k v) :
    c.set k v = .error (.valueError ("invalid key or value type: " ++ k)) := by
  have h' : ¬ c.tagAt k = some v.tag := h
  unfold set
  rw [if_neg h']

theorem find_update (k k' : String) (v : CVal) :
    ∀ c : Config,
      find (update c k v) k' =
        if k' = k then (find c k').map (fun _ => v) else find c k'
  | [] => by by_cases hk : k' = k <;> simp [find, update, hk]
  | (a, b) :: rest => by
    by_cases hak : a = k
    · subst hak
      by_cases hk : k' = a
      · subst hk
        simp [find, update]
      · simp [find, update, hk, Ne.symm hk, find_update a k' v rest]
    · by_cases hka : a = k'
      · subst hka
        simp [find, update, hak, Ne.symm hak]
      · simp [find, update, hka, hak, find_update k k' v rest]

theorem set_preserves_tagAt {c c' : Config} {k : String} {v : CVal}
    (h : c.set k v = .ok c') : ∀ k', c'.tagAt k' = c.tagAt k' := by
  intro k'
  unfold set at h
  by_cases hv : c.tagAt k = some v.tag
  · rw [if_pos hv] at h
    have hc' : c' = c.update k v := (Except.ok.inj h).symm
    subst hc'
    unfold tagAt
    rw [find_update k k' v c]
    by_cases hk : k' = k
    · rw [if_pos hk, hk]
      unfold tagAt at hv
      cases hl : find c k with
      | none => rw [hl] at hv; simp at hv
      | some w =>
        rw [hl] at hv
        simp at hv ⊢
        exact hv.symm
    · rw [if_neg hk]
  · rw [if_neg hv] at h
    exact absurd h (by simp)

end Config

/-! ## `KgeEmbedder.__init__`, `get_option`, and embedder creation -/

/-- Result of the `KgeEmbedder` base initializer: the configuration path, the
resolved embedder type, and the resolved `dim` option. -/
structure EmbedderInit where
  configuration_key : String
  embedder_type : String
  dim : CVal
deriving DecidableEq, Repr

/-- `KgeEmbedder.get_option`: resolve from the embedder's own configuration
scope, falling back to the embedder-type default scope on a missing key. -/
def get_option (config : Config) (configuration_key embedder_type name : String) :
    Except PyErr CVal :=
  match config.get (configuration_key ++ "." ++ name) with
  | .ok v => .ok v
  | .error .keyError => config.get (embedder_type ++ "." ++ name)
  | .error e => .error e

/-- The custom-option validation loop of `KgeEmbedder.__init__`: try to `set`
each custom option on the cloned configuration; a `ValueError` is re-raised
as the descriptive error naming the configuration path and key. -/
def setLoop (ck et : String) : Config → List (String × CVal) → Except PyErr Config
  | dummy, [] => .ok dummy
  | dummy, (k, v) :: rest =>
    match dummy.set (et ++ "." ++ k) v with
    | .ok dummy2 => setLoop ck et dummy2 rest
    | .error (.valueError _) =>
      .error (.valueError ("key " ++ ck ++ "." ++ k ++ " invalid or of incorrect type"))
    | .error e => .error e

/-- `KgeEmbedder.__init__`: read the embedder type, flatten the custom
options, delete the `"type"` entry, validate the remaining options on a
clone of the configuration, and resolve `dim`.  The second component is the
state of the caller's configuration when the call returns. -/
def kgeEmbedder_init (config : Config) (configuration_key : String) :
    Except PyErr EmbedderInit × Config :=
  match config.get (configuration_key ++ ".type") with
  | .ok (CVal.str embedder_type) =>
    let custom_options := config.flattenSub configuration_key
    match Config.find custom_options "type" with
    | none => (.error .keyError, config)
    | some _ =>
      let custom_options2 := custom_options.filter (fun kv => kv.1 != "type")
      let dummy_config := config.clone
      match setLoop configuration_key embedder_type dummy_config custom_options2 with
      | .error e => (.error e, config)
      | .ok _ =>
        match get_option config configuration_key embedder_type "dim" with
        | .error e => (.error e, config)
        | .ok dimv => (.ok ⟨configuration_key, embedder_type, dimv⟩, config)
  | .ok _ => (.error (.typeError "embedder type is not a string"), config)
  | .error e => (.error e, config)

/-- Integer configuration value as a table dimension. -/
def dimNat : CVal → Nat
  | .int n => n.toNat
  | _ => 0

/-- A constructed embedder: initializer result plus its embedding table. -/
structure KgeEmbedderObj where
  info : EmbedderInit
  table : List (List Int)
deriving DecidableEq, Repr

/-- Modelled from the spec: a concrete embedder (e.g. the lookup-table
variant, which is outside this module) first runs the `KgeEmbedder` base
initializer — which validates every custom option — and only afterwards
allocates its `vocab_size × dim` embedding table. -/
def kgeEmbedder_create (config : Config) (configuration_key : String) (vocab_size : Nat) :
    Except PyErr KgeEmbedderObj × Config :=
  match kgeEmbedder_init config configuration_key with
  | (.error e, c) => (.error e, c)
  | (.ok info, c) =>
    (.ok ⟨info, List.replicate vocab_size (List.replicate (dimNat info.dim) 0)⟩, c)

theorem setLoop_ok (ck et : String) :
    ∀ (pairs : List (String × CVal)) (c : Config),
      (∀ kv ∈ pairs, Config.validOpt c (et ++ "." ++ kv.1) kv.2) →
      ∃ c', setLoop ck et c pairs = .ok c'
  | [], c, _ => ⟨c, rfl⟩
  | (k, v) :: rest, c, h => by
    have hv : Config.validOpt c (et ++ "." ++ k) v := h (k, v) (List.mem_cons_self _ _)
    have hset := Config.set_ok_of_validOpt hv
    simp only [setLoop, hset]
    apply setLoop_ok ck et rest (c.update (et ++ "." ++ k) v)
    intro kv hkv
    unfold Config.validOpt
    rw [Config.set_preserves_tagAt hset]
    exact h kv (List.mem_cons_of_mem _ hkv)

theorem setLoop_err (ck et : String) :
    ∀ (pairs : List (String × CVal)) (c : Config),
      (∃ kv ∈ pairs, ¬ Config.validOpt c (et ++ "." ++ kv.1) kv.2) →
      ∃ k v, (k, v) ∈ pairs ∧ ¬ Config.validOpt c (et ++ "." ++ k) v ∧
        setLoop ck et c pairs =
          .error (.valueError ("key " ++ ck ++ "." ++ k ++ " invalid or of incorrect type"))
  | [], _, h => by
    rcases h with ⟨kv, hm, _⟩
    simp at hm
  | (k, v) :: rest, c, h => by
    by_cases hv : Config.validOpt c (et ++ "." ++ k) v
    · have hset := Config.set_ok_of_validOpt hv
      have hrest : ∃ kv ∈ rest,
          ¬ Config.validOpt (c.update (et ++ "." ++ k) v) (et ++ "." ++ kv.1) kv.2 := by
        rcases h with ⟨⟨k0, v0⟩, hm, hbad⟩
        rcases List.mem_cons.mp hm with he | hm2
        · exact absurd hv (by rw [Prod.mk.injEq] at he; rw [← he.1, ← he.2]; exact hbad)
        · refine ⟨(k0, v0), hm2, fun hva => hbad ?_⟩
          unfold Config.validOpt at hva ⊢
          rw [Config.set_preserves_tagAt hset] at hva
          exact hva
      rcases setLoop_err ck et rest (c.update (et ++ "." ++ k) v) hrest with
        ⟨k2, v2, hm2, hbad2, heq⟩
      refine ⟨k2, v2, List.mem_cons_of_mem _ hm2, fun hva => hbad2 ?_, ?_⟩
      · unfold Config.validOpt at hva ⊢
        rw [Config.set_preserves_tagAt hset]
        exact hva
      · simp only [setLoop, hset]
        exact heq
    · have hset := Config.set_err_of_not_validOpt hv
      exact ⟨k, v, List.mem_cons_self _ _, hv, by simp only [setLoop, hset]⟩

/-! ## Concrete instances (spec section 8, scenario 9) -/

/-- The example scorer: sum of the three embedding rows' entries. -/
def sumF : List Int → List Int → List Int → Int := fun a b c => a.sum + b.sum + c.sum

/-- Entity-embedding batch for rows `[0, 1]` of the example table. -/
def sEx : Tensor Int := Tensor.ofRows 1 [[1], [2]]

/-- Relation-embedding batch for rows `[0, 1]` of the example table. -/
def pEx : Tensor Int := Tensor.ofRows 1 [[10], [100]]

/-- The full example entity table as a batch. -/
def oEx : Tensor Int := Tensor.ofRows 1 [[1], [2], [3]]

/-- A two-row object batch. -/
def oPair : Tensor Int := Tensor.ofRows 1 [[5], [7]]

/-- The example model: entities `[1, 2, 3]`, relations `[10, 100]`, dim 1,
sum scorer. -/
def mEx : KModel Int := ⟨[[1], [2], [3]], [[10], [100]], 1, 1, sumF⟩

/-- An example configuration: one embedder at `model.entity_embedder` of type
`lookup`, whose default schema has `dim` and `dropout`. -/
def cfgEx : Config :=
  [("model", CVal.str "m1"),
   ("m1.entity_embedder.type", CVal.str "lookup"),
   ("m1.entity_embedder.dropout", CVal.int 0),
   ("lookup.class_name", CVal.str "LookupEmbedder"),
   ("lookup.dim", CVal.int 100),
   ("lookup.dropout", CVal.int 1)]

/-- A configuration whose embedder has a misspelled custom option `droput`
absent from the `lookup` default schema. -/
def cfgBad : Config :=
  [("m1.entity_embedder.type", CVal.str "lookup"),
   ("m1.entity_embedder.droput", CVal.int 0),
   ("lookup.class_name", CVal.str "LookupEmbedder"),
   ("lookup.dim", CVal.int 100),
   ("lookup.dropout", CVal.int 1)]

/-- Whether `needle` occurs as a contiguous subsequence of `hay`. -/
def hasSeq : List Char → List Char → Bool
  | [], needle => needle.isEmpty
  | c :: rest, needle => ((c :: rest).take needle.length == needle) || hasSeq rest needle

/-! ## Claims -/

/-- Claim C1: with mode `sp*` (requiring `n_s = n_p = n`), the scorer
block-repeats the `s` and `p` rows `n_o` times each, tiles the `o` batch `n`
times, feeds the aligned triples to the SPO primitive, and reshapes the flat
result row-major into an `n × n_o` matrix whose `(i, j)` entry is the SPO
score of `(s_i, p_i, o_j)`. -/
theorem sp_star_scores_each_pair_against_every_object
    (f : List α → List α → List α → α) (s p o : Tensor α)
    (hws : s.WF) (hwp : p.WF) (hwo : o.WF)
    (hn : s.size0 = p.size0) (hpos : 0 < p.size0) :
    score_emb f s p o "sp*" =
      .ok (Tensor.ofRows o.size0
        (List.zipWith (fun sr pr => o.rows.map (fun orow => f sr pr orow)) s.rows p.rows)) ∧
    (Tensor.ofRows o.size0
      (List.zipWith (fun sr pr => o.rows.map (fun orow => f sr pr orow)) s.rows p.rows)).shape
        = [p.size0, o.size0] := by
  refine ⟨score_emb_spStar_ok f s p o hws hwp hwo hn hpos, ?_⟩
  simp only [Tensor.shape_ofRows, List.length_zipWith, Tensor.rows_length, hn, min_self]

/-- Witness for C1 on the concrete example: scores `[102, 103, 104]` and
`[12, 13, 14]`-style sums appear in row-major layout. -/
theorem sp_star_scores_each_pair_against_every_object_witness :
    sEx.size0 = pEx.size0 ∧ 0 < pEx.size0 ∧
    score_emb sumF sEx pEx oEx "sp*" =
      .ok (Tensor.ofRows oEx.size0
        (List.zipWith (fun sr pr => oEx.rows.map (fun orow => sumF sr pr orow))
          sEx.rows pEx.rows)) ∧
    score_emb sumF sEx pEx oEx "sp*" = .ok ⟨[2, 3], [12, 13, 14, 103, 104, 105]⟩ :=
  ⟨by decide, by decide,
    (sp_star_scores_each_pair_against_every_object sumF sEx pEx oEx
      (by decide) (by decide) (by decide) (by decide) (by decide)).1,
    by decide⟩

/-- Claim C2: with mode `*po` (requiring `n_p = n_o = n`), the scorer tiles
the `s` batch `n` times, block-repeats the `p` and `o` rows `n_s` times
each, feeds the aligned triples to the SPO primitive, and reshapes the flat
result row-major into an `n × n_s` matrix whose `(i, j)` entry is the SPO
score of `(s_j, p_i, o_i)`. -/
theorem star_po_scores_each_pair_against_every_subject
    (f : List α → List α → List α → α) (s p o : Tensor α)
    (hws : s.WF) (hwp : p.WF) (hwo : o.WF)
    (hn : o.size0 = p.size0) (hpos : 0 < p.size0) :
    score_emb f s p o "*po" =
      .ok (Tensor.ofRows s.size0
        (List.zipWith (fun pr orow => s.rows.map (fun sr => f sr pr orow)) p.rows o.rows)) ∧
    (Tensor.ofRows s.size0
      (List.zipWith (fun pr orow => s.rows.map (fun sr => f sr pr orow)) p.rows o.rows)).shape
        = [p.size0, s.size0] := by
  refine ⟨score_emb_starPO_ok f s p o hws hwp hwo hn hpos, ?_⟩
  simp only [Tensor.shape_ofRows, List.length_zipWith, Tensor.rows_length, hn, min_self]

/-- Witness for C2 on the concrete example. -/
theorem star_po_scores_each_pair_against_every_subject_witness :
    oPair.size0 = pEx.size0 ∧ 0 < pEx.size0 ∧
    score_emb sumF oEx pEx oPair "*po" =
      .ok (Tensor.ofRows oEx.size0
        (List.zipWith (fun pr orow => oEx.rows.map (fun sr => sumF sr pr orow))
          pEx.rows oPair.rows)) ∧
    score_emb sumF oEx pEx oPair "*po" = .ok ⟨[2, 3], [16, 17, 18, 108, 109, 110]⟩ :=
  ⟨by decide, by decide,
    (star_po_scores_each_pair_against_every_subject sumF oEx pEx oPair
      (by decide) (by decide) (by decide) (by decide) (by decide)).1,
    by decide⟩

/-- Claim C5 (code bug): an unsupported mode does raise a `ValueError` and
returns no result, but the message is the literal text
`cannot handle combine="{}".format(combine)` — the `.format` call sits
inside the string literal in the source, so the message never names the
passed mode (here `"xyz"` does not occur in it). -/
theorem unsupported_mode_message_is_literal :
    score_emb sumF sEx pEx oEx "xyz" =
      .error (.valueError "cannot handle combine=\"\x7b\x7d\".format(combine)") ∧
    hasSeq ("cannot handle combine=\"\x7b\x7d\".format(combine)").data "xyz".data = false := by
  exact ⟨rfl, by decide⟩

/-- Claim C6: batch row counts violating the declared mode's requirement
make `score_emb` fail with the assertion (shape) error and produce no
output. -/
theorem mismatched_batch_sizes_error
    (f : List α → List α → List α → α) (s p o : Tensor α) (combine : String)
    (h : (combine = "spo" ∧ (s.size0 ≠ p.size0 ∨ o.size0 ≠ p.size0))
       ∨ (combine = "sp*" ∧ s.size0 ≠ p.size0)
       ∨ (combine = "*po" ∧ o.size0 ≠ p.size0)) :
    score_emb f s p o combine = .error .assertionError := by
  rcases h with ⟨hc, hmm⟩ | ⟨hc, hne⟩ | ⟨hc, hne⟩
  · subst hc
    rw [score_emb_eq_spo_branch]
    rcases hmm with h1 | h1
    · rw [if_neg (fun hand => h1 hand.1)]
    · rw [if_neg (fun hand => h1 hand.2)]
  · subst hc
    rw [score_emb_eq_spStar_branch, if_neg hne]
  · subst hc
    rw [score_emb_eq_starPO_branch, if_neg hne]

/-- Witness for C6: two subjects against three predicates under `sp*`. -/
theorem mismatched_batch_sizes_error_witness :
    sEx.size0 ≠ oEx.size0 ∧
    score_emb sumF sEx oEx pEx "sp*" = .error .assertionError :=
  ⟨by decide, mismatched_batch_sizes_error sumF sEx oEx pEx "sp*" (by decide)⟩

theorem okBind {A B : Type} (a : A) (f : A → Except PyErr B) :
    (Except.ok a >>= f) = f a := rfl

theorem pureBind {A B : Type} (a : A) (f : A → Except PyErr B) :
    ((pure a : Except PyErr A) >>= f) = f a := rfl

theorem entRows_eq (m : KModel α) (hm : m.WF) (idx : List Nat)
    (h : ∀ i ∈ idx, i < m.entTable.length) :
    (Tensor.ofRows m.d_e (idx.map (fun i => m.entTable.getD i []))).rows
      = idx.map (fun i => m.entTable.getD i []) := by
  apply Tensor.rows_ofRows
  intro r hr
  rcases List.mem_map.mp hr with ⟨i, hi, hri⟩
  have hlt : i < m.entTable.length := h i hi
  rw [← hri, List.getD_eq_getElem m.entTable [] hlt]
  exact hm.1 _ (List.getElem_mem hlt)

theorem relRows_eq (m : KModel α) (hm : m.WF) (idx : List Nat)
    (h : ∀ i ∈ idx, i < m.relTable.length) :
    (Tensor.ofRows m.d_r (idx.map (fun i => m.relTable.getD i []))).rows
      = idx.map (fun i => m.relTable.getD i []) := by
  apply Tensor.rows_ofRows
  intro r hr
  rcases List.mem_map.mp hr with ⟨i, hi, hri⟩
  have hlt : i < m.relTable.length := h i hi
  rw [← hri, List.getD_eq_getElem m.relTable [] hlt]
  exact hm.2 _ (List.getElem_mem hlt)

/-- Claim C3: `score_sp_po` equals the horizontal concatenation of
`score_sp` against the full vocabulary and `score_po` against the full
vocabulary, has shape `n × 2E`, and the shared-embedder optimized path
agrees with computing the two full-vocabulary batches independently. -/
theorem score_sp_po_concatenates_full_vocab_halves (m : KModel α) (s p o : List Nat)
    (hm : m.WF) (hsp : s.length = p.length) (hop : o.length = p.length)
    (hpos : 0 < p.length)
    (hsB : ∀ i ∈ s, i < m.entTable.length)
    (hpB : ∀ i ∈ p, i < m.relTable.length)
    (hoB : ∀ i ∈ o, i < m.entTable.length) :
    ∃ spM poM,
      m.score_sp s p none = .ok spM ∧
      m.score_po p o none = .ok poM ∧
      m.score_sp_po s p o = .ok (Tensor.cat1 spM poM) ∧
      (Tensor.cat1 spM poM).shape = [p.length, 2 * m.entTable.length] ∧
      m.score_sp_po s p o = m.score_sp_po_separate s p o := by
  have hse := m.embedEnt_ok s hsB
  have hpe := m.embedRel_ok p hpB
  have hoe := m.embedEnt_ok o hoB
  have hwse := m.embedEnt_WF hm s hsB
  have hwpe := m.embedRel_WF hm p hpB
  have hwoe := m.embedEnt_WF hm o hoB
  have hwall := m.embed_all_ent_WF hm
  have hspM := score_emb_spStar_ok m.f
    (Tensor.ofRows m.d_e (s.map (fun i => m.entTable.getD i [])))
    (Tensor.ofRows m.d_r (p.map (fun i => m.relTable.getD i [])))
    m.embed_all_ent hwse hwpe hwall (by simp [hsp]) (by simpa using hpos)
  have hpoM := score_emb_starPO_ok m.f m.embed_all_ent
    (Tensor.ofRows m.d_r (p.map (fun i => m.relTable.getD i [])))
    (Tensor.ofRows m.d_e (o.map (fun i => m.entTable.getD i [])))
    hwall hwpe hwoe (by simp [hop]) (by simpa using hpos)
  refine ⟨Tensor.ofRows m.embed_all_ent.size0
      (List.zipWith (fun sr pr => m.embed_all_ent.rows.map (fun orow => m.f sr pr orow))
        (Tensor.ofRows m.d_e (s.map (fun i => m.entTable.getD i []))).rows
        (Tensor.ofRows m.d_r (p.map (fun i => m.relTable.getD i []))).rows),
    Tensor.ofRows m.embed_all_ent.size0
      (List.zipWith (fun pr orow => m.embed_all_ent.rows.map (fun sr => m.f sr pr orow))
        (Tensor.ofRows m.d_r (p.map (fun i => m.relTable.getD i []))).rows
        (Tensor.ofRows m.d_e (o.map (fun i => m.entTable.getD i []))).rows),
    ?_, ?_, ?_, ?_, ?_⟩
  · simp only [KModel.score_sp, hse, hpe, okBind, pureBind]
    exact hspM
  · simp only [KModel.score_po, hpe, hoe, okBind, pureBind]
    exact hpoM
  · simp only [KModel.score_sp_po, hse, hpe, hoe, okBind, pureBind, hspM, hpoM]
    rfl
  · simp only [Tensor.cat1, Tensor.shape_ofRows, List.length_zipWith, Tensor.rows_length,
      Tensor.size0_ofRows, Tensor.cols_ofRows, List.length_map, KModel.embed_all_ent,
      hsp, hop, min_self, two_mul]
  · rfl

/-- Witness for C3: the concatenated row `[102, 103, 104, 104, 105, 106]`
from the spec's concrete scenario, and agreement of the two paths. -/
theorem score_sp_po_concatenates_full_vocab_halves_witness :
    mEx.score_sp_po [0] [1] [2] = mEx.score_sp_po_separate [0] [1] [2] ∧
    mEx.score_sp_po [0] [1] [2] = .ok ⟨[1, 6], [102, 103, 104, 104, 105, 106]⟩ := by
  obtain ⟨spM, poM, h1, h2, h3, h4, h5⟩ :=
    score_sp_po_concatenates_full_vocab_halves mEx [0] [1] [2] (by decide) (by decide)
      (by decide) (by decide) (by decide) (by decide) (by decide)
  exact ⟨h5, by decide⟩

/-- Claim C4 (amended): `score_spo` returns an `n × 1` matrix — not a
1-dimensional `(n,)` vector — whose `i`-th row holds the SPO-primitive score
of the embedding rows of `(s_i, p_i, o_i)`. -/
theorem score_spo_rowwise_scores (m : KModel α) (s p o : List Nat)
    (hm : m.WF) (hsp : s.length = p.length) (hop : o.length = p.length)
    (hpos : 0 < p.length)
    (hsB : ∀ i ∈ s, i < m.entTable.length)
    (hpB : ∀ i ∈ p, i < m.relTable.length)
    (hoB : ∀ i ∈ o, i < m.entTable.length) :
    m.score_spo s p o =
      .ok ⟨[p.length, 1],
        zipWith3 m.f (s.map (fun i => m.entTable.getD i []))
          (p.map (fun i => m.relTable.getD i []))
          (o.map (fun i => m.entTable.getD i []))⟩ := by
  have hse := m.embedEnt_ok s hsB
  have hpe := m.embedRel_ok p hpB
  have hoe := m.embedEnt_ok o hoB
  have h := score_emb_spo_ok m.f
    (Tensor.ofRows m.d_e (s.map (fun i => m.entTable.getD i [])))
    (Tensor.ofRows m.d_r (p.map (fun i => m.relTable.getD i [])))
    (Tensor.ofRows m.d_e (o.map (fun i => m.entTable.getD i [])))
    (by simp [hsp]) (by simp [hop]) (by simpa using hpos)
  simp only [KModel.score_spo, hse, hpe, hoe, okBind]
  rw [h, entRows_eq m hm s hsB, relRows_eq m hm p hpB, entRows_eq m hm o hoB]
  simp [hsp]

/-- Witness for the amended C4 on the spec scenario: `score_spo([0],[1],[2])`
is the 1 × 1 matrix `[[104]]`. -/
theorem score_spo_rowwise_scores_witness :
    mEx.score_spo [0] [1] [2] = .ok ⟨[1, 1], [104]⟩ :=
  score_spo_rowwise_scores mEx [0] [1] [2] (by decide) (by decide) (by decide)
    (by decide) (by decide) (by decide) (by decide)

/-- Counterexample to C4 as stated: at `s = [0]`, `p = [1]`, `o = [2]` the
result's shape is `[1, 1]` (a 2-D `n × 1` matrix produced by
`view(n, -1)`), not the claimed 1-dimensional shape `[1]`. -/
theorem score_spo_output_is_not_one_dimensional :
    mEx.score_spo [0] [1] [2] = .ok ⟨[1, 1], [104]⟩ ∧
    (mEx.score_spo [0] [1] [2]).map Tensor.shape ≠ .ok [1] := by
  exact ⟨rfl, by decide⟩

/-- Claim C7: a custom option whose key (by name and value type) is not valid
in the embedder-type's default schema makes construction fail immediately
with a configuration error naming the embedder's configuration path and the
offending key, before any embedding table is allocated. -/
theorem invalid_custom_option_fails_construction (config : Config) (ck et : String)
    (tv : CVal) (vocab : Nat)
    (htype : config.get (ck ++ ".type") = .ok (.str et))
    (hdel : Config.find (config.flattenSub ck) "type" = some tv)
    (hbad : ∃ kv ∈ (config.flattenSub ck).filter (fun kv => kv.1 != "type"),
        ¬ Config.validOpt config (et ++ "." ++ kv.1) kv.2) :
    ∃ k v, (k, v) ∈ (config.flattenSub ck).filter (fun kv => kv.1 != "type") ∧
      ¬ Config.validOpt config (et ++ "." ++ k) v ∧
      kgeEmbedder_init config ck =
        (.error (.valueError ("key " ++ ck ++ "." ++ k ++ " invalid or of incorrect type")),
          config) ∧
      (kgeEmbedder_create config ck vocab).1 =
        .error (.valueError ("key " ++ ck ++ "." ++ k ++ " invalid or of incorrect type")) := by
  rcases setLoop_err ck et ((config.flattenSub ck).filter (fun kv => kv.1 != "type")) config hbad
    with ⟨k, v, hm, hbadk, heq⟩
  have hinit : kgeEmbedder_init config ck =
      (.error (.valueError ("key " ++ ck ++ "." ++ k ++ " invalid or of incorrect type")),
        config) := by
    simp only [kgeEmbedder_init, htype, hdel, Config.clone, heq]
  refine ⟨k, v, hm, hbadk, hinit, ?_⟩
  simp only [kgeEmbedder_create, hinit]

/-- Witness for C7: the misspelled custom key `droput` aborts construction
with the descriptive error and no table is allocated. -/
theorem invalid_custom_option_fails_construction_witness :
    (∃ k v,
      (k, v) ∈ (cfgBad.flattenSub "m1.entity_embedder").filter (fun kv => kv.1 != "type") ∧
      ¬ Config.validOpt cfgBad ("lookup" ++ "." ++ k) v ∧
      kgeEmbedder_init cfgBad "m1.entity_embedder" =
        (.error (.valueError
          ("key " ++ "m1.entity_embedder" ++ "." ++ k ++ " invalid or of incorrect type")),
          cfgBad) ∧
      (kgeEmbedder_create cfgBad "m1.entity_embedder" 3).1 =
        .error (.valueError
          ("key " ++ "m1.entity_embedder" ++ "." ++ k ++ " invalid or of incorrect type"))) ∧
    (kgeEmbedder_create cfgBad "m1.entity_embedder" 3).1 =
      .error (.valueError "key m1.entity_embedder.droput invalid or of incorrect type") :=
  ⟨invalid_custom_option_fails_construction cfgBad "m1.entity_embedder" "lookup"
      (CVal.str "lookup") 3 (by decide) (by decide) (by decide),
    by decide⟩

/-- Claim C8: `get_option` resolves from the embedder's own configuration
scope when present, otherwise falls back to the embedder-type's default
scope, and signals a missing-key error when neither scope defines it. -/
theorem get_option_custom_then_default (config : Config) (ck et nm : String) :
    (∀ v, config.get (ck ++ "." ++ nm) = .ok v → get_option config ck et nm = .ok v) ∧
    (config.get (ck ++ "." ++ nm) = .error .keyError →
      get_option config ck et nm = config.get (et ++ "." ++ nm)) ∧
    (config.get (ck ++ "." ++ nm) = .error .keyError →
      config.get (et ++ "." ++ nm) = .error .keyError →
      get_option config ck et nm = .error .keyError) := by
  refine ⟨fun v hv => ?_, fun h => ?_, fun h1 h2 => ?_⟩
  · simp only [get_option, hv]
  · simp only [get_option, h]
  · simp only [get_option, h1, h2]

/-- Witness for C8: `dim` is missing from the custom scope and resolves from
the `lookup` default scope. -/
theorem get_option_custom_then_default_witness :
    cfgEx.get ("m1.entity_embedder" ++ "." ++ "dim") = .error .keyError ∧
    get_option cfgEx "m1.entity_embedder" "lookup" "dim" =
      cfgEx.get ("lookup" ++ "." ++ "dim") ∧
    get_option cfgEx "m1.entity_embedder" "lookup" "dim" = .ok (.int 100) :=
  ⟨by decide,
    (get_option_custom_then_default cfgEx "m1.entity_embedder" "lookup" "dim").2.1 (by decide),
    by decide⟩

/-- Claim C9: embedder construction never mutates the caller's configuration:
validation happens on a clone, so the configuration returned to the caller —
whether construction succeeds or fails — is exactly the one passed in. -/
theorem embedder_construction_preserves_config (config : Config) (ck : String) (vocab : Nat) :
    (kgeEmbedder_init config ck).2 = config ∧
    (kgeEmbedder_create config ck vocab).2 = config := by
  have h1 : (kgeEmbedder_init config ck).2 = config := by
    simp only [kgeEmbedder_init]
    repeat' split
    all_goals rfl
  refine ⟨h1, ?_⟩
  unfold kgeEmbedder_create
  split
  · next e c heq => rw [heq] at h1; exact h1
  · next info c heq => rw [heq] at h1; exact h1

/-- Claim C10: the mandatory `"type"` custom entry is deleted from the
custom-option set before validation, so it is never checked against the
embedder-type's default schema: even when setting `et.type` would fail,
construction succeeds as long as every other custom option is valid. -/
theorem type_key_never_validated (config : Config) (ck et : String) (tv dv : CVal)
    (htype : config.get (ck ++ ".type") = .ok (.str et))
    (hdel : Config.find (config.flattenSub ck) "type" = some tv)
    (htypeBad : ¬ Config.validOpt config (et ++ "." ++ "type") tv)
    (hgood : ∀ kv ∈ (config.flattenSub ck).filter (fun kv => kv.1 != "type"),
        Config.validOpt config (et ++ "." ++ kv.1) kv.2)
    (hdim : get_option config ck et "dim" = .ok dv) :
    kgeEmbedder_init config ck = (.ok ⟨ck, et, dv⟩, config) := by
  rcases setLoop_ok ck et ((config.flattenSub ck).filter (fun kv => kv.1 != "type")) config hgood
    with ⟨c2, heq⟩
  simp only [kgeEmbedder_init, htype, hdel, Config.clone, heq, hdim]

/-- Witness for C10: `lookup.type` is absent from the schema (setting it
would fail), yet construction succeeds because `type` is removed before
validation. -/
theorem type_key_never_validated_witness :
    ¬ Config.validOpt cfgEx ("lookup" ++ "." ++ "type") (CVal.str "lookup") ∧
    kgeEmbedder_init cfgEx "m1.entity_embedder" =
      (.ok ⟨"m1.entity_embedder", "lookup", CVal.int 100⟩, cfgEx) :=
  ⟨by decide,
    type_key_never_validated cfgEx "m1.entity_embedder" "lookup" (CVal.str "lookup")
      (CVal.int 100) (by decide) (by decide) (by decide) (by decide) (by decide)⟩
